import Mathlib

/-!
Shallow embedding of the `getbox` dependency-injection container
(`src/index.ts`): producer values (`Constructor<T>`), the `Box` container
with its identity-keyed instance cache, transient resolution (`Box.new`),
cached resolution (`Box.get`), the test override (`Box.mock`), the helper
producers (`factory`, `constant`), and the scoped builder
(`Box.for` / `Construct.new` / `Construct.get`).

Modelling choices:
* Reference identity of JavaScript objects is modelled by natural-number
  identifiers: each freshly constructed object receives the container's
  current allocation counter as its identity, and the counter is bumped.
* The `Map<Constructor<any>, any>` cache is an association list keyed by
  the producer's identity (`Map.set` replaces in place or appends).
* A thrown exception is an opaque numeric code; results carry the
  container state in both the success and the error case, so that
  mutations performed by producer logic before a throw persist, exactly
  as they do through a JavaScript object reference.
* A ghost trace `calls` records every invocation of a producer's creation
  logic; it never influences behaviour and exists only so that "creation
  logic ran n times" is statable.
-/

namespace Getbox

/-- Runtime values: primitives (`nat`) and heap objects.  An object
carries its allocation identifier (its reference identity) and the list
of constructor-argument values it was built from. -/
inductive Value where
  | nat : Nat → Value
  | obj : Nat → List Value → Value

/-- The container state of a `Box` instance: the identity-keyed instance
cache (`private cache = new Map<Constructor<any>, any>()`), the
allocation counter supplying fresh object identities, and the ghost
trace of creation-logic invocations. -/
structure Box where
  cache : List (Nat × Value)
  nextId : Nat
  calls : List Nat

/-- Outcome of a container operation: a value and the updated container,
or a raised error code and the container as the raising logic left it. -/
inductive Res where
  | ok : Value → Box → Res
  | err : Nat → Box → Res

/-- The container state an operation left behind, whether it succeeded
or raised. -/
def Res.boxOf : Res → Box
  | .ok _ box => box
  | .err _ box => box

/-- A producer value (`Constructor<T>` in the source): `id` is its
reference identity (the cache key), and `init?` is `some f` when the
value has an `init` member (`{ init(box: Box): T }` — factories,
constants, and classes with a static `init`), `none` for a plain
zero-argument class.  An initializer receives the container and may read
or mutate it, return a value, or raise. -/
structure Constructor where
  id : Nat
  init? : Option (Box → Res)

/-- `Map.get` composed with `Map.has`: the cached instance stored under a
producer identity, if any. -/
def cacheFind : List (Nat × Value) → Nat → Option Value
  | [], _ => none
  | (k, v) :: rest, key => if k = key then some v else cacheFind rest key

/-- `Map.set`: replace the entry for `key` in place, or append a new
entry. -/
def cacheSet : List (Nat × Value) → Nat → Value → List (Nat × Value)
  | [], key, val => [(key, val)]
  | (k, v) :: rest, key, val =>
    if k = key then (k, val) :: rest else (k, v) :: cacheSet rest key val

/-- `export function factory<T>(init)` — wraps an initializer function as
a producer; `id` models the fresh object identity of the `{ init }`
wrapper. -/
def factory (f : Box → Res) (id : Nat) : Constructor := ⟨id, some f⟩

/-- `export function constant<const T>(value)` — a producer whose
initializer ignores the container and returns `value` unchanged. -/
def constant (v : Value) (id : Nat) : Constructor :=
  ⟨id, some (fun box => Res.ok v box)⟩

/-- `Box.new`: create a transient instance — `"init" in constructor ?
constructor.init(this) : new constructor()`.  The initializer variant
calls the creation function with the container; the class variant
default-constructs a fresh object.  The ghost trace is extended by the
producer's identity at each creation-logic invocation. -/
def Box.new (box : Box) (c : Constructor) : Res :=
  match c.init? with
  | some f => f { box with calls := box.calls ++ [c.id] }
  | none =>
      Res.ok (Value.obj box.nextId [])
        { box with nextId := box.nextId + 1, calls := box.calls ++ [c.id] }

/-- `Box.get`: return the cached instance if the cache holds the
producer's identity; otherwise create via `Box.new`, store the result
under the producer's identity, and return it. -/
def Box.get (box : Box) (c : Constructor) : Res :=
  match cacheFind box.cache c.id with
  | some v => Res.ok v box
  | none =>
      match box.new c with
      | Res.ok v box' =>
          Res.ok v { box' with cache := cacheSet box'.cache c.id v }
      | Res.err e box' => Res.err e box'

/-- `static Box.mock(box, constructor, value)`: force-write a cache entry
under the producer's identity. -/
def Box.mock (box : Box) (c : Constructor) (v : Value) : Box :=
  { box with cache := cacheSet box.cache c.id v }

/-- The result of the `(n+1)`-st consecutive `Box.get` call for the same
producer, starting from `box` (`getNth box c 0` is the first call). -/
def Box.getNth (box : Box) (c : Constructor) : Nat → Res
  | 0 => box.get c
  | n + 1 =>
      match box.get c with
      | Res.ok _ box' => box'.getNth c n
      | Res.err e box' => Res.err e box'

/-- Outcome of resolving a list of positional producers: the values and
the updated container, or the first raised error. -/
inductive ResL where
  | ok : List Value → Box → ResL
  | err : Nat → Box → ResL

/-- The container state left behind by a list resolution. -/
def ResL.boxOf : ResL → Box
  | .ok _ box => box
  | .err _ box => box

/-- `args.map((arg) => step(arg))` with left-to-right evaluation and
exception propagation: resolve each positional producer in order with
`step`, threading the container. -/
def resolveAll (step : Box → Constructor → Res) :
    Box → List Constructor → ResL
  | box, [] => ResL.ok [] box
  | box, a :: rest =>
      match step box a with
      | Res.ok v box' =>
          match resolveAll step box' rest with
          | ResL.ok vs box'' => ResL.ok (v :: vs) box''
          | ResL.err e box'' => ResL.err e box''
      | Res.err e box' => ResL.err e box'

/-- `Construct.new` (reached via `box.for(T).new(...)`): resolve each
positional producer via `Box.new`, then construct the target class with
the resolved values positionally — `new this.construct(...instances)`,
modelled as allocating a fresh object holding the argument values.  The
constructed instance is not cached. -/
def Construct.new (box : Box) (args : List Constructor) : Res :=
  match resolveAll Box.new box args with
  | ResL.ok vals box' =>
      Res.ok (Value.obj box'.nextId vals) { box' with nextId := box'.nextId + 1 }
  | ResL.err e box' => Res.err e box'

/-- `Construct.get` (reached via `box.for(T).get(...)`): as
`Construct.new`, but each positional producer is resolved via `Box.get`. -/
def Construct.get (box : Box) (args : List Constructor) : Res :=
  match resolveAll Box.get box args with
  | ResL.ok vals box' =>
      Res.ok (Value.obj box'.nextId vals) { box' with nextId := box'.nextId + 1 }
  | ResL.err e box' => Res.err e box'

/-- `new Box()`: a fresh container — empty cache, allocation counter at
zero, empty ghost trace. -/
def Box.fresh : Box := ⟨[], 0, []⟩

/-- `true` when every object identity that `v` exposes at top level is
below `n` — i.e. `v` cannot be an object freshly allocated at counter
`n` or later. -/
def topIdBelow (n : Nat) : Value → Bool
  | .nat _ => true
  | .obj i _ => decide (i < n)

/-- A producer whose creation logic never decreases the allocation
counter — true of every real producer, since JavaScript object creation
only ever allocates. -/
def ConsMono (c : Constructor) : Prop :=
  ∀ f b, c.init? = some f → b.nextId ≤ ((f b).boxOf).nextId

/-- A producer whose creation logic never itself re-invokes the same
producer — the no-circular-dependency assumption the spec imposes on
callers. -/
def SelfFree (c : Constructor) : Prop :=
  ∀ f b, c.init? = some f → ((f b).boxOf).calls.count c.id = b.calls.count c.id

/-- A concrete test producer whose initializer raises on its first
invocation and succeeds from the second invocation on (it inspects the
ghost trace to tell them apart). -/
def flaky : Constructor :=
  ⟨7, some (fun b =>
    if b.calls.length ≤ 1 then Res.err 42 b else Res.ok (Value.nat 5) b)⟩

/-! ## Basic cache lemmas -/

theorem cacheFind_set_self (cache : List (Nat × Value)) (k : Nat) (v : Value) :
    cacheFind (cacheSet cache k v) k = some v := by
  induction cache with
  | nil => simp [cacheSet, cacheFind]
  | cons kv rest ih =>
      obtain ⟨k', v'⟩ := kv
      by_cases h : k' = k <;> simp [cacheSet, cacheFind, h, ih]

theorem cacheFind_set_ne (cache : List (Nat × Value)) (k k' : Nat) (v : Value)
    (h : k' ≠ k) : cacheFind (cacheSet cache k v) k' = cacheFind cache k' := by
  induction cache with
  | nil => simp [cacheSet, cacheFind, h, Ne.symm h]
  | cons kv rest ih =>
      obtain ⟨k'', v''⟩ := kv
      by_cases h2 : k'' = k
      · subst h2
        simp [cacheSet, cacheFind, Ne.symm h]
      · by_cases h3 : k'' = k' <;> simp [cacheSet, cacheFind, h, h2, h3, ih]

/-! ## `Box.new` equations -/

theorem new_class (box : Box) (c : Constructor) (hc : c.init? = none) :
    box.new c =
      Res.ok (Value.obj box.nextId [])
        { box with nextId := box.nextId + 1, calls := box.calls ++ [c.id] } := by
  simp [Box.new, hc]

theorem new_init (box : Box) (c : Constructor) (f : Box → Res)
    (hc : c.init? = some f) :
    box.new c = f { box with calls := box.calls ++ [c.id] } := by
  simp [Box.new, hc]

/-! ## `Box.get` lemmas -/

theorem get_hit (box : Box) (c : Constructor) (v : Value)
    (h : cacheFind box.cache c.id = some v) : box.get c = Res.ok v box := by
  simp [Box.get, h]

theorem get_miss_ok (box : Box) (c : Constructor) (v : Value) (box' : Box)
    (h : cacheFind box.cache c.id = none) (hn : box.new c = Res.ok v box') :
    box.get c = Res.ok v { box' with cache := cacheSet box'.cache c.id v } := by
  simp [Box.get, h, hn]

theorem get_miss_err (box : Box) (c : Constructor) (e : Nat) (box' : Box)
    (h : cacheFind box.cache c.id = none) (hn : box.new c = Res.err e box') :
    box.get c = Res.err e box' := by
  simp [Box.get, h, hn]

theorem get_caches (box : Box) (c : Constructor) (v : Value) (box1 : Box)
    (h : box.get c = Res.ok v box1) : cacheFind box1.cache c.id = some v := by
  unfold Box.get at h
  cases hf : cacheFind box.cache c.id with
  | some w =>
      rw [hf] at h
      cases h
      exact hf
  | none =>
      rw [hf] at h
      cases hn : box.new c with
      | ok v' b' =>
          rw [hn] at h
          cases h
          exact cacheFind_set_self _ _ _
      | err e b' =>
          rw [hn] at h
          cases h

theorem get_idem (box : Box) (c : Constructor) (v : Value) (box1 : Box)
    (h : box.get c = Res.ok v box1) : box1.get c = Res.ok v box1 :=
  get_hit _ _ _ (get_caches _ _ _ _ h)

theorem getNth_const (box : Box) (c : Constructor) (v : Value)
    (h : box.get c = Res.ok v box) : ∀ n, box.getNth c n = Res.ok v box := by
  intro n
  induction n with
  | zero => exact h
  | succ n ih => simp [Box.getNth, h, ih]

/-! ## Ghost-trace counting -/

theorem count_append_self (l : List Nat) (a : Nat) :
    (l ++ [a]).count a = l.count a + 1 := by
  simp [List.count_append]

/-! ## Allocation-counter monotonicity -/

theorem new_mono (box : Box) (c : Constructor) (hc : ConsMono c) :
    box.nextId ≤ ((box.new c).boxOf).nextId := by
  cases hf : c.init? with
  | some f =>
      have := hc f { box with calls := box.calls ++ [c.id] } hf
      simpa [new_init box c f hf] using this
  | none => simp [new_class box c hf, Res.boxOf]

theorem resolveAll_new_mono (args : List Constructor)
    (h : ∀ c ∈ args, ConsMono c) (box : Box) :
    box.nextId ≤ ((resolveAll Box.new box args).boxOf).nextId := by
  induction args generalizing box with
  | nil => simp [resolveAll, ResL.boxOf]
  | cons a rest ih =>
      have ha : ConsMono a := h a (List.mem_cons_self a rest)
      have hrest : ∀ c ∈ rest, ConsMono c := fun c hc => h c (List.mem_cons_of_mem a hc)
      cases hna : box.new a with
      | ok v b' =>
          have h1 : box.nextId ≤ b'.nextId := by
            have := new_mono box a ha
            rwa [hna] at this
          have h2 := ih hrest b'
          cases hra : resolveAll Box.new b' rest with
          | ok vs b'' =>
              rw [hra] at h2
              simp only [resolveAll, hna, hra, ResL.boxOf]
              exact le_trans h1 h2
          | err e b'' =>
              rw [hra] at h2
              simp only [resolveAll, hna, hra, ResL.boxOf]
              exact le_trans h1 h2
      | err e b' =>
          have h1 : box.nextId ≤ b'.nextId := by
            have := new_mono box a ha
            rwa [hna] at this
          simp only [resolveAll, hna, ResL.boxOf]
          exact h1

/-! ## Claim theorems -/

/-- C1: `Box.get` is memoized per producer identity: a cache hit returns
the stored entry with the container unchanged (so the producer's creation
logic is not re-invoked); a cache miss invokes `Box.new`, stores the
result under the producer's identity, and returns it; after one
successful `Box.get`, the `n`-th subsequent call returns the identical
instance with the container unchanged for every `n`; and on a miss the
producer's creation logic runs exactly once, provided the producer does
not recursively invoke itself. -/
theorem C1_get_memoized (box : Box) (c : Constructor) :
    (∀ v, cacheFind box.cache c.id = some v → box.get c = Res.ok v box) ∧
    (∀ v box', cacheFind box.cache c.id = none → box.new c = Res.ok v box' →
      box.get c = Res.ok v { box' with cache := cacheSet box'.cache c.id v }) ∧
    (∀ v box1, box.get c = Res.ok v box1 → ∀ n, box1.getNth c n = Res.ok v box1) ∧
    (∀ v box1, cacheFind box.cache c.id = none → SelfFree c →
      box.get c = Res.ok v box1 →
      box1.calls.count c.id = box.calls.count c.id + 1) := by
  refine ⟨fun v h => get_hit box c v h,
    fun v box' h hn => get_miss_ok box c v box' h hn,
    fun v box1 h n => getNth_const box1 c v (get_idem box c v box1 h) n, ?_⟩
  intro v box1 hmiss hsf h
  unfold Box.get at h
  rw [hmiss] at h
  cases hn : box.new c with
  | ok v' b' =>
      rw [hn] at h
      cases h
      cases hf : c.init? with
      | some f =>
          have h2 := hsf f { box with calls := box.calls ++ [c.id] } hf
          rw [new_init box c f hf] at hn
          rw [hn] at h2
          simpa [Res.boxOf, count_append_self] using h2
      | none =>
          rw [new_class box c hf] at hn
          cases hn
          simp [count_append_self]
  | err e b' =>
      rw [hn] at h
      cases h

/-- Witness for C1 at the constant producer `constant (nat 3)` with
identity `0` on a fresh container: the first call constructs and caches
`nat 3` while recording one creation-logic invocation, the fifth call
still returns `nat 3` with the container untouched, and the creation
logic ran exactly once. -/
theorem C1_get_memoized_witness :
    Box.fresh.get (constant (Value.nat 3) 0) =
      Res.ok (Value.nat 3) ⟨[(0, Value.nat 3)], 0, [0]⟩ ∧
    Box.getNth ⟨[(0, Value.nat 3)], 0, [0]⟩ (constant (Value.nat 3) 0) 4 =
      Res.ok (Value.nat 3) ⟨[(0, Value.nat 3)], 0, [0]⟩ ∧
    ([0] : List Nat).count 0 = ([] : List Nat).count 0 + 1 := by
  have h := C1_get_memoized Box.fresh (constant (Value.nat 3) 0)
  have hsf : SelfFree (constant (Value.nat 3) 0) := by
    intro f b hf
    injection hf with hf
    subst hf
    rfl
  have h1 : Box.fresh.get (constant (Value.nat 3) 0) =
      Res.ok (Value.nat 3) ⟨[(0, Value.nat 3)], 0, [0]⟩ :=
    h.2.1 (Value.nat 3) ⟨[], 0, [0]⟩ rfl rfl
  exact ⟨h1, h.2.2.1 (Value.nat 3) ⟨[(0, Value.nat 3)], 0, [0]⟩ h1 4,
    h.2.2.2 (Value.nat 3) ⟨[(0, Value.nat 3)], 0, [0]⟩ rfl hsf h1⟩

/-- C2: `Box.mock` unconditionally writes `value` into the cache under
the producer's identity, overwriting any prior entry (and pre-empting
future construction); afterwards `Box.get` for that producer returns
exactly `value` with the container unchanged, and neither the mock nor
the subsequent get invokes any creation logic (the ghost trace stays
what it was) — for an arbitrary starting container, hence both before
the first `Box.get` and after an instance was already cached. -/
theorem C2_mock_overrides (box : Box) (c : Constructor) (v : Value) :
    cacheFind (Box.mock box c v).cache c.id = some v ∧
    (Box.mock box c v).get c = Res.ok v (Box.mock box c v) ∧
    (Box.mock box c v).calls = box.calls ∧
    ((Box.mock box c v).get c).boxOf.calls = box.calls := by
  have h1 : cacheFind (Box.mock box c v).cache c.id = some v :=
    cacheFind_set_self _ _ _
  have h2 := get_hit _ c v h1
  exact ⟨h1, h2, rfl, by rw [h2]; rfl⟩

/-- C5: an error raised by a producer's creation logic propagates
unchanged through `Box.get` — the same error code, with the container
exactly as the producer's logic left it, so `Box.get` writes no cache
entry of its own for the failed producer; and if the failed producer has
no cache entry afterwards, the next `Box.get` re-invokes the creation
logic through `Box.new` (the failure was not memoized). -/
theorem C5_error_propagation (box : Box) (c : Constructor) (e : Nat) (box' : Box)
    (hmiss : cacheFind box.cache c.id = none)
    (herr : box.new c = Res.err e box') :
    box.get c = Res.err e box' ∧
    (∀ v2 b2, cacheFind box'.cache c.id = none → box'.new c = Res.ok v2 b2 →
      box'.get c = Res.ok v2 { b2 with cache := cacheSet b2.cache c.id v2 }) :=
  ⟨get_miss_err box c e box' hmiss herr,
   fun v2 b2 h1 h2 => get_miss_ok box' c v2 b2 h1 h2⟩

/-- Witness for C5 at the `flaky` producer on a fresh container: the
first `Box.get` propagates error code `42` with no cache entry written,
and the second `Box.get` re-invokes the creation logic, which now
succeeds and is cached. -/
theorem C5_error_propagation_witness :
    Box.fresh.get flaky = Res.err 42 ⟨[], 0, [7]⟩ ∧
    Box.get ⟨[], 0, [7]⟩ flaky =
      Res.ok (Value.nat 5) ⟨[(7, Value.nat 5)], 0, [7, 7]⟩ := by
  have h := C5_error_propagation Box.fresh flaky 42 ⟨[], 0, [7]⟩ rfl rfl
  exact ⟨h.1, h.2 (Value.nat 5) ⟨[], 0, [7, 7]⟩ rfl rfl⟩

/-- C8: `Box.new` invokes the producer's creation logic unconditionally —
the initializer variant is called with the container as argument and its
result is returned verbatim (so any cache effect is the producer's own),
the class variant default-constructs a fresh object — and `Box.new`
itself never reads or writes the cache: for the class variant the cache
is untouched, two consecutive calls return distinct instances, and the
creation logic runs exactly once per call. -/
theorem C8_new_transient (box : Box) (c : Constructor) :
    (∀ f, c.init? = some f →
      box.new c = f { box with calls := box.calls ++ [c.id] }) ∧
    (c.init? = none →
      box.new c =
        Res.ok (Value.obj box.nextId [])
          { box with nextId := box.nextId + 1, calls := box.calls ++ [c.id] }) ∧
    (c.init? = none → ((box.new c).boxOf).cache = box.cache) ∧
    (c.init? = none → ∀ v1 b1 v2 b2,
      box.new c = Res.ok v1 b1 → b1.new c = Res.ok v2 b2 →
      v1 ≠ v2 ∧ b1.calls = box.calls ++ [c.id] ∧
      b2.calls = (box.calls ++ [c.id]) ++ [c.id]) := by
  refine ⟨fun f hf => new_init box c f hf, fun hc => new_class box c hc,
    fun hc => by rw [new_class box c hc]; rfl, ?_⟩
  intro hc v1 b1 v2 b2 h1 h2
  rw [new_class box c hc] at h1
  cases h1
  rw [new_class _ c hc] at h2
  cases h2
  refine ⟨?_, rfl, rfl⟩
  intro h
  injection h with ha hb
  simp at ha

/-- Witness for C8 at the class-variant producer with identity `1` on a
fresh container: two consecutive `Box.new` calls allocate the distinct
objects `obj 0` and `obj 1`, each recording one creation-logic
invocation, and the cache stays empty. -/
theorem C8_new_transient_witness :
    Box.fresh.new ⟨1, none⟩ = Res.ok (Value.obj 0 []) ⟨[], 1, [1]⟩ ∧
    Box.new ⟨[], 1, [1]⟩ ⟨1, none⟩ = Res.ok (Value.obj 1 []) ⟨[], 2, [1, 1]⟩ ∧
    Value.obj 0 [] ≠ Value.obj 1 [] := by
  have h := C8_new_transient Box.fresh ⟨1, none⟩
  have h1 : Box.fresh.new ⟨1, none⟩ = Res.ok (Value.obj 0 []) ⟨[], 1, [1]⟩ :=
    h.2.1 rfl
  have h2 : Box.new ⟨[], 1, [1]⟩ ⟨1, none⟩ =
      Res.ok (Value.obj 1 []) ⟨[], 2, [1, 1]⟩ := rfl
  exact ⟨h1, h2,
    (h.2.2.2 rfl (Value.obj 0 []) ⟨[], 1, [1]⟩ (Value.obj 1 []) ⟨[], 2, [1, 1]⟩
      h1 h2).1⟩

/-- C9: an override does not affect `Box.new` — after `Box.mock` the
transient path still invokes the producer's creation logic (the
initializer is called with the mocked container, the class variant still
default-constructs a fresh object whose identity is independent of the
mocked value), while `Box.get` on the same container returns the mocked
value; the fresh object is distinct from the mocked value whenever the
latter is not itself an object allocated at the current counter. -/
theorem C9_mock_then_new (box : Box) (c : Constructor) (v : Value) :
    (∀ f, c.init? = some f →
      (Box.mock box c v).new c =
        f ⟨cacheSet box.cache c.id v, box.nextId, box.calls ++ [c.id]⟩) ∧
    (c.init? = none →
      (Box.mock box c v).new c =
        Res.ok (Value.obj box.nextId [])
          ⟨cacheSet box.cache c.id v, box.nextId + 1, box.calls ++ [c.id]⟩ ∧
      (Box.mock box c v).get c = Res.ok v (Box.mock box c v) ∧
      (topIdBelow box.nextId v = true → Value.obj box.nextId [] ≠ v)) := by
  refine ⟨fun f hf => new_init (Box.mock box c v) c f hf, fun hc => ⟨?_, ?_, ?_⟩⟩
  · exact new_class (Box.mock box c v) c hc
  · exact get_hit _ c v (cacheFind_set_self _ _ _)
  · intro htop heq
    cases v with
    | nat n => exact Value.noConfusion heq
    | obj i vargs =>
        injection heq with ha hb
        simp [topIdBelow] at htop
        omega

/-- Witness for C9 at the class-variant producer with identity `1`,
mocked to `nat 9` on a fresh container: `Box.new` still allocates the
fresh `obj 0` and records a creation-logic invocation, `Box.get` returns
the mock `nat 9`, and the two differ. -/
theorem C9_mock_then_new_witness :
    Box.new (Box.mock Box.fresh ⟨1, none⟩ (Value.nat 9)) ⟨1, none⟩ =
      Res.ok (Value.obj 0 []) ⟨[(1, Value.nat 9)], 1, [1]⟩ ∧
    Box.get (Box.mock Box.fresh ⟨1, none⟩ (Value.nat 9)) ⟨1, none⟩ =
      Res.ok (Value.nat 9) (Box.mock Box.fresh ⟨1, none⟩ (Value.nat 9)) ∧
    Value.obj 0 [] ≠ Value.nat 9 := by
  have h := (C9_mock_then_new Box.fresh ⟨1, none⟩ (Value.nat 9)).2 rfl
  exact ⟨h.1, h.2.1, h.2.2 rfl⟩

/-- C10: the initializer variant takes precedence — whenever the
producer value has an `init` member (`init? = some f`), `Box.new`
returns exactly the result of calling `f` with the container (so the
class constructor path, which would allocate a fresh object, is never
taken), and `Box.get` on a cache miss stores and returns that same
result; the zero-argument class construction happens only when no
`init` member is present. -/
theorem C10_init_precedence (box : Box) (c : Constructor) :
    (∀ f, c.init? = some f →
      box.new c = f { box with calls := box.calls ++ [c.id] } ∧
      (cacheFind box.cache c.id = none → ∀ v b',
        f { box with calls := box.calls ++ [c.id] } = Res.ok v b' →
        box.get c = Res.ok v { b' with cache := cacheSet b'.cache c.id v })) ∧
    (c.init? = none →
      box.new c =
        Res.ok (Value.obj box.nextId [])
          { box with nextId := box.nextId + 1, calls := box.calls ++ [c.id] }) := by
  refine ⟨fun f hf => ⟨new_init box c f hf, ?_⟩, fun hc => new_class box c hc⟩
  intro hmiss v b' hres
  have hn : box.new c = Res.ok v b' := by rw [new_init box c f hf]; exact hres
  exact get_miss_ok box c v b' hmiss hn

/-- Witness for C10 at the constant producer `constant (nat 4)` with
identity `2` (an initializer-variant producer) on a fresh container:
`Box.new` returns the initializer's result `nat 4` without allocating
any object, and `Box.get` caches and returns it. -/
theorem C10_init_precedence_witness :
    Box.fresh.new (constant (Value.nat 4) 2) = Res.ok (Value.nat 4) ⟨[], 0, [2]⟩ ∧
    Box.fresh.get (constant (Value.nat 4) 2) =
      Res.ok (Value.nat 4) ⟨[(2, Value.nat 4)], 0, [2]⟩ := by
  have h := (C10_init_precedence Box.fresh (constant (Value.nat 4) 2)).1
    (fun b => Res.ok (Value.nat 4) b) rfl
  exact ⟨h.1, h.2 rfl (Value.nat 4) ⟨[], 0, [2]⟩ rfl⟩

/-- C6 counterexample: the claim "once a producer has a cache entry,
every subsequent `Box.get` for that identity returns the same instance
for the container's entire lifetime" is false as stated, because
`Box.mock` overwrites the entry: after `Box.get` cached `nat 1` for the
constant producer with identity `0`, a `Box.mock` to `nat 2` makes the
next `Box.get` return `nat 2`, not the previously cached `nat 1`. -/
theorem C6_counterexample :
    Box.fresh.get (constant (Value.nat 1) 0) =
      Res.ok (Value.nat 1) ⟨[(0, Value.nat 1)], 0, [0]⟩ ∧
    Box.get (Box.mock ⟨[(0, Value.nat 1)], 0, [0]⟩ (constant (Value.nat 1) 0)
        (Value.nat 2)) (constant (Value.nat 1) 0) =
      Res.ok (Value.nat 2)
        (Box.mock ⟨[(0, Value.nat 1)], 0, [0]⟩ (constant (Value.nat 1) 0)
          (Value.nat 2)) ∧
    Value.nat 2 ≠ Value.nat 1 := by
  refine ⟨rfl, rfl, ?_⟩
  simp

/-- C6 amended: once a producer has a cache entry, every subsequent
`Box.get` for that exact identity returns that same instance with the
container unchanged — for arbitrarily many consecutive calls — unless
and until the entry is overwritten (by `Box.mock`, or by cache writes a
producer's own logic performs through the container); no operation
removes a cache entry: `Box.mock` for a different identity, and
`Box.new`/`Box.get` for any class-variant producer, leave the entry in
place with its value intact. -/
theorem C6_cache_persistence (box : Box) (c : Constructor) (v : Value)
    (h : cacheFind box.cache c.id = some v) :
    box.get c = Res.ok v box ∧
    (∀ n, box.getNth c n = Res.ok v box) ∧
    (∀ c' w, Constructor.id c' ≠ c.id →
      cacheFind (Box.mock box c' w).cache c.id = some v) ∧
    (∀ c', Constructor.init? c' = none →
      cacheFind ((box.new c').boxOf).cache c.id = some v ∧
      cacheFind ((box.get c').boxOf).cache c.id = some v) := by
  have hget := get_hit box c v h
  refine ⟨hget, getNth_const box c v hget, ?_, ?_⟩
  · intro c' w hne
    exact (cacheFind_set_ne box.cache c'.id c.id w hne.symm).trans h
  · intro c' hc'
    constructor
    · rw [new_class box c' hc']
      exact h
    · cases hf : cacheFind box.cache c'.id with
      | some w => rw [get_hit box c' w hf]; exact h
      | none =>
          have hne : c.id ≠ c'.id := by
            intro he
            rw [he] at h
            rw [h] at hf
            exact Option.noConfusion hf
          rw [get_miss_ok box c' _ _ hf (new_class box c' hc')]
          exact (cacheFind_set_ne _ c'.id c.id _ hne).trans h

/-- Witness for the amended C6 at a container holding `nat 1` under
identity `0`: repeated `Box.get` calls keep returning `nat 1` with the
container unchanged, and a `Box.mock` under identity `5` as well as a
class-variant `Box.get` under identity `5` both leave the entry intact. -/
theorem C6_cache_persistence_witness :
    Box.get ⟨[(0, Value.nat 1)], 0, []⟩ (constant (Value.nat 1) 0) =
      Res.ok (Value.nat 1) ⟨[(0, Value.nat 1)], 0, []⟩ ∧
    Box.getNth ⟨[(0, Value.nat 1)], 0, []⟩ (constant (Value.nat 1) 0) 3 =
      Res.ok (Value.nat 1) ⟨[(0, Value.nat 1)], 0, []⟩ ∧
    cacheFind (Box.mock ⟨[(0, Value.nat 1)], 0, []⟩ ⟨5, none⟩
      (Value.nat 9)).cache 0 = some (Value.nat 1) ∧
    cacheFind ((Box.get ⟨[(0, Value.nat 1)], 0, []⟩ ⟨5, none⟩).boxOf).cache 0 =
      some (Value.nat 1) := by
  have h := C6_cache_persistence ⟨[(0, Value.nat 1)], 0, []⟩
    (constant (Value.nat 1) 0) (Value.nat 1) rfl
  exact ⟨h.1, h.2.1 3, h.2.2.1 ⟨5, none⟩ (Value.nat 9) (by decide),
    (h.2.2.2 ⟨5, none⟩ rfl).2⟩

/-- C7: the cache is keyed by the producer value's identity, not by
structural equality: for producers built by `constant` — all of which
share the same creation behaviour up to the wrapped value — a first
`Box.get` under a fresh identity caches and returns the wrapped value,
every later call returns it again, and resolving a second constant
producer with a different identity stores its value under a separate
entry, leaving both entries retrievable with their own values (no
collision). -/
theorem C7_identity_keys (box : Box) (v1 v2 : Value) (i1 i2 : Nat)
    (hne : i1 ≠ i2) (h1 : cacheFind box.cache i1 = none)
    (h2 : cacheFind box.cache i2 = none) :
    box.get (constant v1 i1) =
      Res.ok v1 ⟨cacheSet box.cache i1 v1, box.nextId, box.calls ++ [i1]⟩ ∧
    (∀ n, Box.getNth ⟨cacheSet box.cache i1 v1, box.nextId, box.calls ++ [i1]⟩
        (constant v1 i1) n =
      Res.ok v1 ⟨cacheSet box.cache i1 v1, box.nextId, box.calls ++ [i1]⟩) ∧
    Box.get ⟨cacheSet box.cache i1 v1, box.nextId, box.calls ++ [i1]⟩
        (constant v2 i2) =
      Res.ok v2 ⟨cacheSet (cacheSet box.cache i1 v1) i2 v2, box.nextId,
        (box.calls ++ [i1]) ++ [i2]⟩ ∧
    cacheFind (cacheSet (cacheSet box.cache i1 v1) i2 v2) i1 = some v1 ∧
    cacheFind (cacheSet (cacheSet box.cache i1 v1) i2 v2) i2 = some v2 := by
  have hga : box.get (constant v1 i1) =
      Res.ok v1 ⟨cacheSet box.cache i1 v1, box.nextId, box.calls ++ [i1]⟩ :=
    get_miss_ok box (constant v1 i1) v1 ⟨box.cache, box.nextId, box.calls ++ [i1]⟩
      h1 rfl
  have hhit : Box.get ⟨cacheSet box.cache i1 v1, box.nextId, box.calls ++ [i1]⟩
      (constant v1 i1) =
      Res.ok v1 ⟨cacheSet box.cache i1 v1, box.nextId, box.calls ++ [i1]⟩ :=
    get_hit _ (constant v1 i1) v1 (cacheFind_set_self box.cache i1 v1)
  have hmiss2 : cacheFind (cacheSet box.cache i1 v1) i2 = none :=
    (cacheFind_set_ne box.cache i1 i2 v1 (Ne.symm hne)).trans h2
  have hgb : Box.get ⟨cacheSet box.cache i1 v1, box.nextId, box.calls ++ [i1]⟩
      (constant v2 i2) =
      Res.ok v2 ⟨cacheSet (cacheSet box.cache i1 v1) i2 v2, box.nextId,
        (box.calls ++ [i1]) ++ [i2]⟩ :=
    get_miss_ok _ (constant v2 i2) v2
      ⟨cacheSet box.cache i1 v1, box.nextId, (box.calls ++ [i1]) ++ [i2]⟩
      hmiss2 rfl
  refine ⟨hga, fun n => getNth_const _ (constant v1 i1) v1 hhit n, hgb, ?_, ?_⟩
  · exact (cacheFind_set_ne (cacheSet box.cache i1 v1) i2 i1 v2 hne).trans
      (cacheFind_set_self box.cache i1 v1)
  · exact cacheFind_set_self (cacheSet box.cache i1 v1) i2 v2

/-- Witness for C7: on a fresh container, the constant producer wrapping
`nat 3000` under identity `0` caches and returns `3000`, still returns
it on the third call, and a distinct constant producer wrapping
`nat 4000` under identity `1` gets its own entry; both entries coexist. -/
theorem C7_identity_keys_witness :
    Box.fresh.get (constant (Value.nat 3000) 0) =
      Res.ok (Value.nat 3000) ⟨[(0, Value.nat 3000)], 0, [0]⟩ ∧
    Box.getNth ⟨[(0, Value.nat 3000)], 0, [0]⟩ (constant (Value.nat 3000) 0) 2 =
      Res.ok (Value.nat 3000) ⟨[(0, Value.nat 3000)], 0, [0]⟩ ∧
    Box.get ⟨[(0, Value.nat 3000)], 0, [0]⟩ (constant (Value.nat 4000) 1) =
      Res.ok (Value.nat 4000)
        ⟨[(0, Value.nat 3000), (1, Value.nat 4000)], 0, [0, 1]⟩ ∧
    cacheFind [(0, Value.nat 3000), (1, Value.nat 4000)] 0 =
      some (Value.nat 3000) ∧
    cacheFind [(0, Value.nat 3000), (1, Value.nat 4000)] 1 =
      some (Value.nat 4000) := by
  have h := C7_identity_keys Box.fresh (Value.nat 3000) (Value.nat 4000) 0 1
    (by decide) rfl rfl
  exact ⟨h.1, h.2.1 2, h.2.2.1, h.2.2.2.1, h.2.2.2.2⟩

/-- C3: the scoped builder's `new` resolves each positional producer via
`Box.new` in the given order and constructs the target with the resolved
values positionally; the constructed instance is a fresh object that is
not written to the cache; for two class-variant producers the
left-to-right order is explicit in the resulting values and trace; a
class-variant dependency is freshly constructed even when the container
already caches an instance for it, and differs from that cached
instance; and under allocation-monotone producers two successive calls
never return the same target instance. -/
theorem C3_construct_new (box : Box) :
    (∀ args vals box', resolveAll Box.new box args = ResL.ok vals box' →
      Construct.new box args =
        Res.ok (Value.obj box'.nextId vals)
          ⟨box'.cache, box'.nextId + 1, box'.calls⟩) ∧
    (∀ c1 c2, Constructor.init? c1 = none → Constructor.init? c2 = none →
      Construct.new box [c1, c2] =
        Res.ok (Value.obj (box.nextId + 2)
            [Value.obj box.nextId [], Value.obj (box.nextId + 1) []])
          ⟨box.cache, box.nextId + 3, (box.calls ++ [c1.id]) ++ [c2.id]⟩) ∧
    (∀ c w, Constructor.init? c = none → cacheFind box.cache c.id = some w →
      topIdBelow box.nextId w = true →
      Construct.new box [c] =
        Res.ok (Value.obj (box.nextId + 1) [Value.obj box.nextId []])
          ⟨box.cache, box.nextId + 2, box.calls ++ [c.id]⟩ ∧
      Value.obj box.nextId [] ≠ w) ∧
    (∀ args, (∀ c ∈ args, ConsMono c) → ∀ v1 b1 v2 b2,
      Construct.new box args = Res.ok v1 b1 →
      Construct.new b1 args = Res.ok v2 b2 → v1 ≠ v2) := by
  refine ⟨?_, ?_, ?_, ?_⟩
  · intro args vals box' hra
    unfold Construct.new
    rw [hra]
  · intro c1 c2 hc1 hc2
    obtain ⟨i1, o1⟩ := c1
    obtain ⟨i2, o2⟩ := c2
    simp only at hc1 hc2
    subst hc1
    subst hc2
    rfl
  · intro c w hc hw htop
    obtain ⟨i, o⟩ := c
    simp only at hc
    subst hc
    refine ⟨rfl, ?_⟩
    intro heq
    cases w with
    | nat n => exact Value.noConfusion heq
    | obj j wargs =>
        injection heq with ha hb
        simp [topIdBelow] at htop
        omega
  · intro args hmono v1 b1 v2 b2 hn1 hn2
    unfold Construct.new at hn1 hn2
    cases hra : resolveAll Box.new box args with
    | ok vals b' =>
        rw [hra] at hn1
        cases hn1
        cases hrb : resolveAll Box.new
            { b' with nextId := b'.nextId + 1 } args with
        | ok vals2 b'' =>
            rw [hrb] at hn2
            cases hn2
            have hm := resolveAll_new_mono args hmono
              { b' with nextId := b'.nextId + 1 }
            rw [hrb] at hm
            simp only [ResL.boxOf] at hm
            intro heq
            injection heq with ha hb
            omega
        | err e b'' =>
            rw [hrb] at hn2
            cases hn2
    | err e b' =>
        rw [hra] at hn1
        cases hn1

/-- Witness for C3 at a container that already caches `obj 0` for the
class-variant producer with identity `1` (allocation counter at `1`):
the scoped builder freshly constructs the dependency `obj 1` — not the
cached `obj 0` — wraps it in the fresh target `obj 2`, caches nothing,
and a second call returns the distinct target `obj 4`. -/
theorem C3_construct_new_witness :
    Construct.new ⟨[(1, Value.obj 0 [])], 1, [1]⟩ [⟨1, none⟩] =
      Res.ok (Value.obj 2 [Value.obj 1 []])
        ⟨[(1, Value.obj 0 [])], 3, [1, 1]⟩ ∧
    Value.obj 1 [] ≠ Value.obj 0 [] ∧
    Construct.new ⟨[(1, Value.obj 0 [])], 3, [1, 1]⟩ [⟨1, none⟩] =
      Res.ok (Value.obj 4 [Value.obj 3 []])
        ⟨[(1, Value.obj 0 [])], 5, [1, 1, 1]⟩ ∧
    Value.obj 2 [Value.obj 1 []] ≠ Value.obj 4 [Value.obj 3 []] := by
  have h := C3_construct_new ⟨[(1, Value.obj 0 [])], 1, [1]⟩
  have h3 := h.2.2.1 ⟨1, none⟩ (Value.obj 0 []) rfl rfl rfl
  have hmono : ∀ c ∈ [(⟨1, none⟩ : Constructor)], ConsMono c := by
    intro c hc
    rw [List.mem_singleton] at hc
    subst hc
    intro f b hf
    exact Option.noConfusion hf
  have hb : Construct.new ⟨[(1, Value.obj 0 [])], 3, [1, 1]⟩ [⟨1, none⟩] =
      Res.ok (Value.obj 4 [Value.obj 3 []])
        ⟨[(1, Value.obj 0 [])], 5, [1, 1, 1]⟩ := rfl
  exact ⟨h3.1, h3.2, hb,
    h.2.2.2 [⟨1, none⟩] hmono (Value.obj 2 [Value.obj 1 []])
      ⟨[(1, Value.obj 0 [])], 3, [1, 1]⟩ (Value.obj 4 [Value.obj 3 []])
      ⟨[(1, Value.obj 0 [])], 5, [1, 1, 1]⟩ h3.1 hb⟩

/-- C4: the scoped builder's `get` resolves each positional producer via
`Box.get` and constructs a fresh target that is not written to the
cache; for a single producer, two successive calls return distinct
target instances that carry the identical dependency instance — exactly
the value `Box.get` returns for that producer, the second resolution
being a cache hit. -/
theorem C4_construct_get (box : Box) :
    (∀ args vals box', resolveAll Box.get box args = ResL.ok vals box' →
      Construct.get box args =
        Res.ok (Value.obj box'.nextId vals)
          ⟨box'.cache, box'.nextId + 1, box'.calls⟩) ∧
    (∀ c v box', box.get c = Res.ok v box' →
      Construct.get box [c] =
        Res.ok (Value.obj box'.nextId [v])
          ⟨box'.cache, box'.nextId + 1, box'.calls⟩ ∧
      Construct.get ⟨box'.cache, box'.nextId + 1, box'.calls⟩ [c] =
        Res.ok (Value.obj (box'.nextId + 1) [v])
          ⟨box'.cache, box'.nextId + 2, box'.calls⟩ ∧
      Value.obj box'.nextId [v] ≠ Value.obj (box'.nextId + 1) [v]) := by
  have hmain : ∀ args vals box', resolveAll Box.get box args = ResL.ok vals box' →
      Construct.get box args =
        Res.ok (Value.obj box'.nextId vals)
          ⟨box'.cache, box'.nextId + 1, box'.calls⟩ := by
    intro args vals box' hra
    unfold Construct.get
    rw [hra]
  refine ⟨hmain, ?_⟩
  intro c v box' hg
  have hcached : cacheFind box'.cache c.id = some v := get_caches box c v box' hg
  have hhit : Box.get ⟨box'.cache, box'.nextId + 1, box'.calls⟩ c =
      Res.ok v ⟨box'.cache, box'.nextId + 1, box'.calls⟩ :=
    get_hit _ c v hcached
  have hra1 : resolveAll Box.get box [c] = ResL.ok [v] box' := by
    simp only [resolveAll, hg]
  have hra2 : resolveAll Box.get ⟨box'.cache, box'.nextId + 1, box'.calls⟩ [c] =
      ResL.ok [v] ⟨box'.cache, box'.nextId + 1, box'.calls⟩ := by
    simp only [resolveAll, hhit]
  refine ⟨hmain [c] [v] box' hra1, ?_, ?_⟩
  · unfold Construct.get
    rw [hra2]
  · intro heq
    injection heq with ha hb
    omega

/-- Witness for C4 at the constant producer `constant (nat 3)` with
identity `0` on a fresh container: the first scoped `get` caches the
dependency and wraps it in target `obj 0`, the second call returns the
distinct target `obj 1` carrying the identical dependency `nat 3`, and
the two targets differ. -/
theorem C4_construct_get_witness :
    Construct.get Box.fresh [constant (Value.nat 3) 0] =
      Res.ok (Value.obj 0 [Value.nat 3]) ⟨[(0, Value.nat 3)], 1, [0]⟩ ∧
    Construct.get ⟨[(0, Value.nat 3)], 1, [0]⟩ [constant (Value.nat 3) 0] =
      Res.ok (Value.obj 1 [Value.nat 3]) ⟨[(0, Value.nat 3)], 2, [0]⟩ ∧
    Value.obj 0 [Value.nat 3] ≠ Value.obj 1 [Value.nat 3] := by
  have h := (C4_construct_get Box.fresh).2 (constant (Value.nat 3) 0)
    (Value.nat 3) ⟨[(0, Value.nat 3)], 0, [0]⟩ rfl
  exact ⟨h.1, h.2.1, h.2.2⟩

end Getbox
